import Mathlib

/-!
Verification of the trusted-markup integration engine in
`src/web_frontend/src/app/figma-screen/figma-screen.component.ts`
(`FigmaScreenComponent`).

The component's string processing is a fixed pipeline of JavaScript regex
operations; we embed them as executable scanners over `List Char`.  Regex
semantics modelled: a global `String.replace` scans left to right, at each
position tries the pattern, on a match emits the replacement and resumes
scanning right after the matched text (the emitted replacement is not
rescanned); on a miss it emits the character and moves one position right.
The skip of matched text is modelled by a `Nat` skip-state so that every
scanner is structurally recursive (and hence kernel-computable).

DOM interaction (`appendStylesheet` / `appendScript`, `ngOnInit` /
`ngOnDestroy`) is embedded as explicit state passing over a `Doc` value.
-/

namespace FigmaScreen

/-! ### Basic string machinery -/

/-- Case-sensitive: `pat` is a prefix of `s`. -/
def beginsWith : List Char → List Char → Bool
  | [], _ => true
  | _ :: _, [] => false
  | p :: ps, c :: cs => p == c && beginsWith ps cs

/-- Case-insensitive (pattern written in lower case): `pat` is a prefix of `s`
up to `Char.toLower`.  Models the `i` regex flag. -/
def beginsWithCI : List Char → List Char → Bool
  | [], _ => true
  | _ :: _, [] => false
  | p :: ps, c :: cs => p == c.toLower && beginsWithCI ps cs

/-- Case-sensitive substring occurrence. -/
def hasSub (pat : List Char) : List Char → Bool
  | [] => beginsWith pat []
  | c :: cs => beginsWith pat (c :: cs) || hasSub pat cs

/-- Case-insensitive substring occurrence. -/
def hasSubCI (pat : List Char) : List Char → Bool
  | [] => beginsWithCI pat []
  | c :: cs => beginsWithCI pat (c :: cs) || hasSubCI pat cs

/-- Index of the first (case-insensitive) occurrence of `pat` in `s`. -/
def findCI (pat : List Char) : List Char → Option Nat
  | [] => if beginsWithCI pat [] then some 0 else none
  | c :: cs =>
    if beginsWithCI pat (c :: cs) then some 0
    else (findCI pat cs).map (fun n => n + 1)

/-- A generic guard: no position strictly inside `u` (viewed as a prefix of
`u ++ tail`) satisfies the scanner test `hit`.  Used to state where a
scanner's first match begins. -/
def noHitWithin (hit : List Char → Bool) : List Char → List Char → Bool
  | [], _ => true
  | c :: u, tail => !(hit (c :: (u ++ tail))) && noHitWithin hit u tail

/-! ### The Markup Extractor (`extractBodyInnerHtml`)

Source regexes:
  `/<body[^>]*>([\s\S]*?)<\/body>/i`       (first match, group 1)
  `/<script[\s\S]*?<\/script>/gi`          (global removal)
-/

/-- Drop input through the first `>` (models `[^>]*>`); `none` if there is
no `>`. -/
def afterGt : List Char → Option (List Char)
  | [] => none
  | c :: cs => if c == '>' then some cs else afterGt cs

/-- The lazy group `([\s\S]*?)` before the first case-insensitive
`</body>`: returns the content up to (excluding) that closing tag, or
`none` when no closing tag follows. -/
def innerUpToCloseBody : List Char → Option (List Char)
  | [] => none
  | c :: cs =>
    if beginsWithCI "</body>".data (c :: cs) then some []
    else (innerUpToCloseBody cs).map (fun r => c :: r)

/-- Try the whole body regex at the current position. -/
def bodyInnerAt (s : List Char) : Option (List Char) :=
  if beginsWithCI "<body".data s then
    match afterGt (s.drop 5) with
    | none => none
    | some t => innerUpToCloseBody t
  else none

/-- `html.match(/<body[^>]*>([\s\S]*?)<\/body>/i)`: group 1 of the leftmost
position where the full pattern matches. -/
def findBodyInner : List Char → Option (List Char)
  | [] => none
  | c :: cs =>
    match bodyInnerAt (c :: cs) with
    | some r => some r
    | none => findBodyInner cs

/-- Distance to skip (in the list after the leading `<`) to pass the whole
`<script[\s\S]*?<\/script>` match: `none` when no `</script>` follows the
`<script` head. -/
def closeScriptDist (cs : List Char) : Option Nat :=
  (findCI "</script>".data (cs.drop 6)).map (fun p => 6 + p + 9)

/-- `content.replace(/<script[\s\S]*?<\/script>/gi, '')` as a skip-state
scanner: the first argument counts characters of an already-matched region
still to drop. -/
def stripScriptsS : Nat → List Char → List Char
  | _, [] => []
  | k + 1, _ :: cs => stripScriptsS k cs
  | 0, c :: cs =>
    if beginsWithCI "<script".data (c :: cs) then
      match closeScriptDist cs with
      | some k => stripScriptsS k cs
      | none => c :: stripScriptsS 0 cs
    else c :: stripScriptsS 0 cs

/-- `FigmaScreenComponent.extractBodyInnerHtml` (lines 378–393): take group 1
of the body regex when the match exists and group 1 is truthy (a JS empty
string is falsy, so an empty group leaves the whole input in place), then
strip `<script>...</script>` elements. -/
def extractBodyCore (html : List Char) : List Char :=
  let content :=
    match findBodyInner html with
    | some inner => if inner.isEmpty then html else inner
    | none => html
  stripScriptsS 0 content

/-- String-level wrapper with the source method's name. -/
def extractBodyInnerHtml (html : String) : String :=
  ⟨extractBodyCore html.data⟩

/-! ### The Path Rewriter (`rewriteAssetUrls`)

Source replacements, in order:
  1. `/(["'\(])(?:\.\/)?figmaimages\//g`            → `$1/assets/figmaimages/`
  2. `/(["'\(])\.\/common\.css/g`                   → `$1/assets/common.css`
  3. `/(["'\(])\.\/spotify-1-0-3\.css/g`            → `$1/assets/spotify-1-0-3.css`
  4. `/(["'\(])\.\/app\.js/g`                       → `$1/assets/app.js`
  5. `/(["'\(])\.\/spotify-1-0-3\.js/g`             → `$1/assets/spotify-1-0-3.js`
  6. `/(src|href)=["']assets\//g`                   → `$1="/assets/`
  7. `/<link[^>]+rel=["']?stylesheet["']?[^>]*>/gi` → `` (removal)
-/

/-- The capture class `(["'\(])`. -/
def isDelim (c : Char) : Bool :=
  c == '"' || c == Char.ofNat 39 || c == '('

/-- Rule 1.  The optional `(?:\.\/)?` is greedy, so `./figmaimages/` is
preferred over the bare form at the same position. -/
def replFigS : Nat → List Char → List Char
  | _, [] => []
  | k + 1, _ :: cs => replFigS k cs
  | 0, c :: cs =>
    if isDelim c && beginsWith "./figmaimages/".data cs then
      c :: ("/assets/figmaimages/".data ++ replFigS 14 cs)
    else if isDelim c && beginsWith "figmaimages/".data cs then
      c :: ("/assets/figmaimages/".data ++ replFigS 12 cs)
    else c :: replFigS 0 cs

/-- Rules 2–5 share one shape: a delimiter followed by a literal `./name`
reference, replaced by the delimiter and `/assets/name`. -/
def replLitS (pat repl : List Char) : Nat → List Char → List Char
  | _, [] => []
  | k + 1, _ :: cs => replLitS pat repl k cs
  | 0, c :: cs =>
    if isDelim c && beginsWith pat cs then
      c :: (repl ++ replLitS pat repl pat.length cs)
    else c :: replLitS pat repl 0 cs

/-- Rule 6, `(src|href)=["']assets\/` → `$1="/assets/`: either quote is
accepted but the replacement always writes a double quote. -/
def replAssetsS : Nat → List Char → List Char
  | _, [] => []
  | k + 1, _ :: cs => replAssetsS k cs
  | 0, c :: cs =>
    if beginsWith "src=\"assets/".data (c :: cs) then
      "src=\"/assets/".data ++ replAssetsS 11 cs
    else if beginsWith ("src=".data ++ Char.ofNat 39 :: "assets/".data) (c :: cs) then
      "src=\"/assets/".data ++ replAssetsS 11 cs
    else if beginsWith "href=\"assets/".data (c :: cs) then
      "href=\"/assets/".data ++ replAssetsS 12 cs
    else if beginsWith ("href=".data ++ Char.ofNat 39 :: "assets/".data) (c :: cs) then
      "href=\"/assets/".data ++ replAssetsS 12 cs
    else c :: replAssetsS 0 cs

/-- The run of `[^>]` characters up to the first `>`, together with the rest
after that `>`; `none` when no `>` remains. -/
def spanToGt : List Char → Option (List Char × List Char)
  | [] => none
  | c :: cs =>
    if c == '>' then some ([], cs)
    else (spanToGt cs).map (fun p => (c :: p.1, p.2))

/-- `rel=["']?stylesheet` (case-insensitive letters) at the head: the
optional quote is greedy, so a present quote must be followed by
`stylesheet` (the regex cannot fall back to matching `stylesheet` on the
quote character itself). -/
def relStylesheetAt (t : List Char) : Bool :=
  beginsWithCI "rel=".data t &&
    (match t.drop 4 with
     | [] => false
     | q :: r =>
       if q == '"' || q == Char.ofNat 39 then beginsWithCI "stylesheet".data r
       else beginsWithCI "stylesheet".data (q :: r))

/-- Some suffix of `t` satisfies `relStylesheetAt`. -/
def containsRelPat : List Char → Bool
  | [] => false
  | c :: cs => relStylesheetAt (c :: cs) || containsRelPat cs

/-- Distance to skip (after the leading `<`) to pass a whole
`<link[^>]+rel=["']?stylesheet["']?[^>]*>` match: the tag's non-`>` span
must contain the `rel=...stylesheet` pattern at offset at least one
(`[^>]+` consumes at least one character). -/
def linkMatchDist (cs : List Char) : Option Nat :=
  match spanToGt (cs.drop 4) with
  | none => none
  | some (sp, _) =>
    if containsRelPat (sp.drop 1) then some (4 + sp.length + 1) else none

/-- Rule 7 as a skip-state scanner. -/
def stripLinksS : Nat → List Char → List Char
  | _, [] => []
  | k + 1, _ :: cs => stripLinksS k cs
  | 0, c :: cs =>
    if beginsWithCI "<link".data (c :: cs) then
      match linkMatchDist cs with
      | some k => stripLinksS k cs
      | none => c :: stripLinksS 0 cs
    else c :: stripLinksS 0 cs

/-- `FigmaScreenComponent.rewriteAssetUrls` (lines 404–423): the seven
replacements applied in source order. -/
def rewriteCore (html : List Char) : List Char :=
  stripLinksS 0
    (replAssetsS 0
      (replLitS "./spotify-1-0-3.js".data "/assets/spotify-1-0-3.js".data 0
        (replLitS "./app.js".data "/assets/app.js".data 0
          (replLitS "./spotify-1-0-3.css".data "/assets/spotify-1-0-3.css".data 0
            (replLitS "./common.css".data "/assets/common.css".data 0
              (replFigS 0 html))))))

/-- String-level wrapper with the source method's name. -/
def rewriteAssetUrls (html : String) : String :=
  ⟨rewriteCore html.data⟩

/-! ### The Resource Loader and the hosting document

`appendStylesheet` (lines 80–97) and `appendScript` (lines 100–116) mutate
the hosting document.  We model the document as optional head and body
element lists plus a counter supplying fresh element identities (handles
are element identities).  In a DOM document `document.head` and
`document.getElementsByTagName('head')[0]` denote the same node, so the
`||` fallback in the source collapses to the single `head` field here, and
likewise for `body`.

The source wraps each operation in `try`/`catch { return null }`.  A pure
embedding cannot throw, so `DomEnv` records which internal DOM operation
(querySelector, createElement, appendChild) would throw; a raised
exception reaches the `catch` before any mutation by the operation has
happened. -/

structure Elem where
  eid : Nat
  tag : String
  rel : String
  href : String
  src : String
  media : String
  deferAttr : Bool
deriving DecidableEq, Repr

structure Doc where
  head : Option (List Elem)
  body : Option (List Elem)
  nextId : Nat
deriving DecidableEq, Repr

structure DomEnv where
  failQuery : Bool
  failCreate : Bool
  failAppend : Bool
deriving DecidableEq, Repr

/-- The environment in which no DOM operation throws. -/
def envOk : DomEnv := ⟨false, false, false⟩

/-- `head.querySelector('link[rel="stylesheet"][href="..."]')`: first match
in the head only. -/
def findStyleLink (hd : List Elem) (href : String) : Option Elem :=
  hd.find? (fun e => e.tag == "link" && e.rel == "stylesheet" && e.href == href)

/-- Document-order element list (head before body). -/
def docElems (d : Doc) : List Elem :=
  d.head.getD [] ++ d.body.getD []

/-- `document.querySelector('script[src="..."]')`: first match in the whole
document. -/
def findScriptEl (d : Doc) (src : String) : Option Elem :=
  (docElems d).find? (fun e => e.tag == "script" && e.src == src)

/-- The link element `appendStylesheet` creates: `rel='stylesheet'`, the
given `href`, `media='all'`. -/
def mkLinkElem (i : Nat) (href : String) : Elem :=
  { eid := i, tag := "link", rel := "stylesheet", href := href,
    src := "", media := "all", deferAttr := false }

/-- The script element `appendScript` creates: the given `src` and `defer`
flag. -/
def mkScriptElem (i : Nat) (src : String) (dfr : Bool) : Elem :=
  { eid := i, tag := "script", rel := "", href := "", src := src,
    media := "", deferAttr := dfr }

/-- `FigmaScreenComponent.appendStylesheet` (lines 80–97). -/
def appendStylesheet (env : DomEnv) (d : Doc) (href : String) : Option Nat × Doc :=
  match d.head with
  | none => (none, d)            -- if (!head) return null
  | some hd =>
    if env.failQuery then (none, d)     -- querySelector threw; caught, null
    else
      match findStyleLink hd href with
      | some e => (some e.eid, d)       -- duplicate found: return existing
      | none =>
        if env.failCreate || env.failAppend then (none, d)  -- threw; caught
        else
          (some d.nextId,
           { d with head := some (hd ++ [mkLinkElem d.nextId href]),
                    nextId := d.nextId + 1 })

/-- `FigmaScreenComponent.appendScript` (lines 100–116). -/
def appendScript (env : DomEnv) (d : Doc) (src : String) (dfr : Bool) :
    Option Nat × Doc :=
  match d.body with
  | none => (none, d)            -- if (!body) return null
  | some bd =>
    if env.failQuery then (none, d)
    else
      match findScriptEl d src with
      | some e => (some e.eid, d)
      | none =>
        if env.failCreate || env.failAppend then (none, d)
        else
          (some d.nextId,
           { d with body := some (bd ++ [mkScriptElem d.nextId src dfr]),
                    nextId := d.nextId + 1 })

/-- `node.remove()`: detach the element with the given identity from
wherever it sits in the document. -/
def removeElem (d : Doc) (i : Nat) : Doc :=
  { d with
     head := d.head.map (fun l => l.filter (fun e => !(e.eid == i))),
     body := d.body.map (fun l => l.filter (fun e => !(e.eid == i))) }

/-! ### The Screen Controller lifecycle (`ngOnInit` / `ngOnDestroy`) -/

/-- Observable steps of a mount, in execution order. -/
inductive MEvent
  | ensureStyle (href : String)
  | commitMarkup
  | ensureScript (src : String)
deriving DecidableEq, Repr

def MEvent.isStyle : MEvent → Bool
  | .ensureStyle _ => true
  | _ => false

def MEvent.isScript : MEvent → Bool
  | .ensureScript _ => true
  | _ => false

/-- The `x(a) || x(b)` call pattern of `ngOnInit`: the second call runs only
when the first returned null, and the document state of the first call
persists. -/
def ensureWithFallback (ensure : Doc → String → Option Nat × Doc)
    (d : Doc) (h1 h2 : String) (mk : String → MEvent) :
    Option Nat × Doc × List MEvent :=
  match ensure d h1 with
  | (some h, d1) => (some h, d1, [mk h1])
  | (none, d1) =>
    match ensure d1 h2 with
    | (r, d2) => (r, d2, [mk h1, mk h2])

/-- The component state a mount produces. -/
structure MountResult where
  doc : Doc
  addedNodes : List Nat
  htmlContent : String
  events : List MEvent
deriving DecidableEq, Repr

/-- First browser-guarded block of `ngOnInit` (lines 46–51): the two
stylesheet injections, each with its relative-path fallback; truthy handles
are pushed onto `addedNodes`. -/
def ngOnInitStyles (env : DomEnv) (d : Doc) : Doc × List Nat × List MEvent :=
  match ensureWithFallback (appendStylesheet env) d
      "/assets/common.css" "assets/common.css" MEvent.ensureStyle with
  | (css1, d1, e1) =>
    match ensureWithFallback (appendStylesheet env) d1
        "/assets/spotify-1-0-3.css" "assets/spotify-1-0-3.css"
        MEvent.ensureStyle with
    | (css2, d2, e2) =>
      (d2, (css1.toList ++ css2.toList), e1 ++ e2)

/-- Second browser-guarded block of `ngOnInit` (lines 58–63): the two
script injections (`defer` passed as `false`). -/
def ngOnInitScripts (env : DomEnv) (d : Doc) : Doc × List Nat × List MEvent :=
  match ensureWithFallback (fun d s => appendScript env d s false) d
      "/assets/app.js" "assets/app.js" MEvent.ensureScript with
  | (js1, d1, e1) =>
    match ensureWithFallback (fun d s => appendScript env d s false) d1
        "/assets/spotify-1-0-3.js" "assets/spotify-1-0-3.js"
        MEvent.ensureScript with
    | (js2, d2, e2) =>
      (d2, (js1.toList ++ js2.toList), e1 ++ e2)

/-- `FigmaScreenComponent.ngOnInit` (lines 44–64): styles first (browser
only), then the markup commit (`htmlContent` is assigned on every
platform), then scripts (browser only).  The component reads its source
document from the `getSourceHtml` constant; the model takes the source
text as a parameter, which the lifecycle claims never inspect. -/
def ngOnInitRun (env : DomEnv) (browser : Bool) (src : String) (d : Doc) :
    MountResult :=
  let s := if browser then ngOnInitStyles env d else (d, [], [])
  let html := rewriteAssetUrls (extractBodyInnerHtml src)
  let t := if browser then ngOnInitScripts env s.1 else (s.1, [], [])
  { doc := t.1,
    addedNodes := s.2.1 ++ t.2.1,
    htmlContent := html,
    events := s.2.2 ++ [MEvent.commitMarkup] ++ t.2.2 }

/-- `FigmaScreenComponent.ngOnDestroy` (lines 66–77): outside a browser
nothing happens; otherwise every node in `addedNodes` is removed and the
list is cleared. -/
def ngOnDestroyRun (browser : Bool) (m : MountResult) : MountResult :=
  if browser then
    { m with doc := m.addedNodes.foldl removeElem m.doc, addedNodes := [] }
  else m

/-! ### The Content Acquirer and failure handling (modelled from the spec)

The component in `src/` uses only the embedded-literal acquisition mode
(`getSourceHtml`), which §4.4 of the spec says bypasses the fetch failure
modes entirely; the fetch-based Content Acquirer and the
`Failed`-state/fallback handling of §4.4, §4.5 and §7 are not present in
`src/`.  They are modelled here from the spec's words. -/

/-- Modelled from the spec: ScreenState of §3 — Loading, Ready, Failed. -/
inductive ScreenState
  | loading
  | ready
  | failed
deriving DecidableEq, Repr

/-- Modelled from the spec: AcquisitionError of §4.4 — no network
capability, non-success response status, or empty/whitespace-only
payload. -/
inductive AcquisitionError
  | noNetwork
  | badStatus
  | emptyPayload
deriving DecidableEq, Repr

/-- Modelled from the spec: outcome of the underlying fetch — `ok` is the
success status of the response, `text` the payload. -/
structure FetchResponse where
  ok : Bool
  text : String
deriving DecidableEq, Repr

/-- Modelled from the spec: FallbackContent (§3, §7) — statically known
markup explaining the unavailable preview, with an accessible alert
region; it has no external dependencies. -/
def fallbackContent : String :=
  "<div role=\"alert\">The design preview is currently unavailable.</div>"

/-- Modelled from the spec: the fetch-based `acquire` of §4.4 — fails when
no network capability exists, when the response has a non-success status,
or when the payload is empty or whitespace-only; on success the raw text
passes through the Markup Extractor. -/
def acquire (r : Option FetchResponse) : Except AcquisitionError String :=
  match r with
  | none => .error .noNetwork
  | some resp =>
    if !resp.ok then .error .badStatus
    else if resp.text.data.all Char.isWhitespace then .error .emptyPayload
    else .ok (extractBodyInnerHtml resp.text)

/-- Modelled from the spec: the Screen Controller transition of §4.5 — on
successful acquisition the rewritten markup is committed in state `Ready`;
on `AcquisitionError` the controller enters `Failed` and substitutes
FallbackContent. -/
def mountAcquired (r : Option FetchResponse) : ScreenState × String :=
  match acquire r with
  | .ok m => (.ready, rewriteAssetUrls m)
  | .error _ => (.failed, fallbackContent)

/-! ## Claims -/

/-! ### C1 — removal of discovered resource elements on unmount -/

/-- A stylesheet link already present in the hosting document before the
mount (for instance from `index.html`). -/
def preExistingLink : Elem :=
  { eid := 7, tag := "link", rel := "stylesheet", href := "/assets/common.css",
    src := "", media := "", deferAttr := false }

/-- A hosting document whose head carries `preExistingLink`. -/
def hostDoc : Doc := { head := some [preExistingLink], body := some [], nextId := 10 }

/-- The document contains an element with identity `i`. -/
def docHasElem (d : Doc) (i : Nat) : Bool :=
  (docElems d).any (fun e => e.eid == i)

/-- C1: the claim says a resource element discovered already present at
ensure time is never removed on unmount.  The code violates this:
`ngOnInit` pushes the handle returned for the discovered element onto
`addedNodes` (lines 49–50, 61–62), and `ngOnDestroy` removes every node in
`addedNodes` — here the pre-existing stylesheet link (identity 7) is
present before mount and gone after a mount/unmount cycle. -/
theorem C1_discovered_link_removed :
    docHasElem hostDoc 7 = true ∧
    docHasElem (ngOnDestroyRun true (ngOnInitRun envOk true "" hostDoc)).doc 7 = false := by
  decide

/-! ### C2 — empty acquisition leads to Failed plus fallback -/

/-- C2: whenever the fetch resolves with an empty or whitespace-only
payload, the (spec-modelled) controller ends in `Failed` and commits the
FallbackContent markup, which is non-empty. -/
theorem C2_empty_acquisition_fails_to_fallback (resp : FetchResponse)
    (h : resp.text.data.all Char.isWhitespace = true) :
    mountAcquired (some resp) = (ScreenState.failed, fallbackContent) ∧
    fallbackContent ≠ "" := by
  refine ⟨?_, by decide⟩
  cases hok : resp.ok <;> simp [mountAcquired, acquire, hok, h]

/-- Witness for C2 at the concrete one-space payload. -/
theorem C2_witness :
    mountAcquired (some { ok := true, text := " " }) =
      (ScreenState.failed, fallbackContent) ∧ fallbackContent ≠ "" :=
  C2_empty_acquisition_fails_to_fallback { ok := true, text := " " } (by decide)

/-! ### C4 — idempotence of the Path Rewriter -/

/-- An input on which the Path Rewriter is not idempotent: stripping the
inner stylesheet link concatenates the surrounding text into a new
stylesheet link tag, which only a second pass strips. -/
def nonIdemInput : String := "<li<link rel=stylesheet>nk href=x rel=stylesheet>"

/-- C4 counterexample: applying `rewriteAssetUrls` twice differs from
applying it once (one pass yields `<link href=x rel=stylesheet>`, the
second deletes it). -/
theorem C4_counterexample :
    rewriteAssetUrls (rewriteAssetUrls nonIdemInput) ≠ rewriteAssetUrls nonIdemInput := by
  decide

/-- The one-pass output is a fixed point of each individual rewrite rule. -/
def rwStable (s : List Char) : Prop :=
  replFigS 0 s = s ∧
  replLitS "./common.css".data "/assets/common.css".data 0 s = s ∧
  replLitS "./spotify-1-0-3.css".data "/assets/spotify-1-0-3.css".data 0 s = s ∧
  replLitS "./app.js".data "/assets/app.js".data 0 s = s ∧
  replLitS "./spotify-1-0-3.js".data "/assets/spotify-1-0-3.js".data 0 s = s ∧
  replAssetsS 0 s = s ∧
  stripLinksS 0 s = s

instance rwStableDec (s : List Char) : Decidable (rwStable s) := by
  unfold rwStable; infer_instance

/-- C4 amended: the Path Rewriter is idempotent on every input whose
one-pass output contains no further occurrence of any of the seven
recognized patterns (is a fixed point of each rule); unrestricted
idempotence fails, because stripping a stylesheet link can concatenate the
surrounding text into a new stylesheet link (`C4_counterexample`). -/
theorem C4_idempotent_when_output_stable (s : String)
    (h : rwStable (rewriteCore s.data)) :
    rewriteAssetUrls (rewriteAssetUrls s) = rewriteAssetUrls s := by
  show (⟨rewriteCore (rewriteCore s.data)⟩ : String) = ⟨rewriteCore s.data⟩
  generalize ht : rewriteCore s.data = t at h
  obtain ⟨h1, h2, h3, h4, h5, h6, h7⟩ := h
  unfold rewriteCore
  rw [h1, h2, h3, h4, h5, h6, h7]

/-- Witness for C4 on the §8 scenario input, whose one-pass output is
stable. -/
theorem C4_witness :
    rwStable (rewriteCore "<a href=\"./figmaimages/x.png\">".data) ∧
    rewriteAssetUrls (rewriteAssetUrls "<a href=\"./figmaimages/x.png\">") =
      rewriteAssetUrls "<a href=\"./figmaimages/x.png\">" :=
  ⟨by decide, C4_idempotent_when_output_stable _ (by decide)⟩

/-! ### C10 — null returns of the Resource Loader -/

/-- C10: `appendStylesheet` with no document head, and `appendScript` with
no document body, return a null handle and leave the document untouched;
and whenever one of the internal DOM operations throws (the querySelector,
or — on the creation path — createElement/appendChild), the exception is
caught and turned into a null return with the document untouched, instead
of propagating. -/
theorem C10_null_paths :
    (∀ env d href, d.head = none → appendStylesheet env d href = (none, d)) ∧
    (∀ env d src dfr, d.body = none → appendScript env d src dfr = (none, d)) ∧
    (∀ env d href, env.failQuery = true → appendStylesheet env d href = (none, d)) ∧
    (∀ env d src dfr, env.failQuery = true → appendScript env d src dfr = (none, d)) ∧
    (∀ env d hd href, d.head = some hd → findStyleLink hd href = none →
      (env.failCreate || env.failAppend) = true →
      appendStylesheet env d href = (none, d)) ∧
    (∀ env d bd src dfr, d.body = some bd → findScriptEl d src = none →
      (env.failCreate || env.failAppend) = true →
      appendScript env d src dfr = (none, d)) := by
  refine ⟨?_, ?_, ?_, ?_, ?_, ?_⟩
  · intro env d href h; simp [appendStylesheet, h]
  · intro env d src dfr h; simp [appendScript, h]
  · intro env d href h
    cases hh : d.head with
    | none => simp [appendStylesheet, hh]
    | some hd => simp [appendStylesheet, hh, h]
  · intro env d src dfr h
    cases hb : d.body with
    | none => simp [appendScript, hb]
    | some bd => simp [appendScript, hb, h]
  · intro env d hd href hh hf hfail
    cases hq : env.failQuery with
    | true => simp [appendStylesheet, hh, hq]
    | false => simp [appendStylesheet, hh, hq, hf, hfail]
  · intro env d bd src dfr hb hf hfail
    cases hq : env.failQuery with
    | true => simp [appendScript, hb, hq]
    | false => simp [appendScript, hb, hq, hf, hfail]

/-- Witness for C10 at concrete documents and environments. -/
theorem C10_witness :
    appendStylesheet envOk { head := none, body := some [], nextId := 0 } "x" =
      (none, { head := none, body := some [], nextId := 0 }) ∧
    appendScript envOk { head := some [], body := none, nextId := 0 } "y" false =
      (none, { head := some [], body := none, nextId := 0 }) ∧
    appendStylesheet { failQuery := true, failCreate := false, failAppend := false }
      { head := some [], body := some [], nextId := 0 } "x" =
      (none, { head := some [], body := some [], nextId := 0 }) ∧
    appendScript { failQuery := false, failCreate := true, failAppend := false }
      { head := some [], body := some [], nextId := 0 } "y" true =
      (none, { head := some [], body := some [], nextId := 0 }) :=
  ⟨C10_null_paths.1 _ _ _ rfl,
   C10_null_paths.2.1 _ _ _ _ rfl,
   C10_null_paths.2.2.1 _ _ _ rfl,
   C10_null_paths.2.2.2.2.2 _ _ _ _ _ rfl (by decide) rfl⟩

/-! ### C6 — no duplicate resource references -/

/-- The stylesheet-link resource elements of an element list. -/
def styleLinksOf (l : List Elem) : List Elem :=
  l.filter (fun e => e.tag == "link" && e.rel == "stylesheet")

/-- The script resource elements of an element list. -/
def scriptsOf (l : List Elem) : List Elem :=
  l.filter (fun e => e.tag == "script")

/-- No two resource elements of the document share a reference: stylesheet
links have pairwise distinct `href`s and scripts pairwise distinct
`src`s. -/
def dupFreeRefs (d : Doc) : Prop :=
  ((styleLinksOf (docElems d)).map Elem.href).Nodup ∧
  ((scriptsOf (docElems d)).map Elem.src).Nodup

instance dupFreeRefsDec (d : Doc) : Decidable (dupFreeRefs d) := by
  unfold dupFreeRefs; infer_instance

/-- Every stylesheet link of the document sits in the head — the region
`appendStylesheet`'s duplicate check actually searches. -/
def noBodyStyleLinks (d : Doc) : Prop :=
  styleLinksOf (d.body.getD []) = []

instance noBodyStyleLinksDec (d : Doc) : Decidable (noBodyStyleLinks d) := by
  unfold noBodyStyleLinks; infer_instance

/-- One `ensure*` request of the Resource Loader. -/
inductive RCall
  | style (href : String)
  | script (src : String) (dfr : Bool)
deriving DecidableEq, Repr

/-- Document effect of one `ensure*` call. -/
def runCall (env : DomEnv) (d : Doc) : RCall → Doc
  | .style href => (appendStylesheet env d href).2
  | .script src dfr => (appendScript env d src dfr).2

/-- Document effect of a call sequence (within one mount or across
remounts). -/
def runCalls (env : DomEnv) (calls : List RCall) (d : Doc) : Doc :=
  calls.foldl (runCall env) d

/-- Case analysis of `appendStylesheet`'s document effect: either the
document is untouched, or a fresh link is appended to the head after the
duplicate check found no stylesheet link with this `href` there. -/
theorem appendStylesheet_snd (env : DomEnv) (d : Doc) (href : String) :
    (appendStylesheet env d href).2 = d ∨
    ∃ hd, d.head = some hd ∧ findStyleLink hd href = none ∧
      (appendStylesheet env d href).2 =
        { d with head := some (hd ++ [mkLinkElem d.nextId href]),
                 nextId := d.nextId + 1 } := by
  cases hh : d.head with
  | none => exact .inl (by simp [appendStylesheet, hh])
  | some hd =>
    cases hq : env.failQuery with
    | true => exact .inl (by simp [appendStylesheet, hh, hq])
    | false =>
      cases hf : findStyleLink hd href with
      | some e => exact .inl (by simp [appendStylesheet, hh, hq, hf])
      | none =>
        cases hc : env.failCreate || env.failAppend with
        | true => exact .inl (by simp [appendStylesheet, hh, hq, hf, hc])
        | false =>
          exact .inr ⟨hd, rfl, hf, by simp [appendStylesheet, hh, hq, hf, hc]⟩

/-- Case analysis of `appendScript`'s document effect. -/
theorem appendScript_snd (env : DomEnv) (d : Doc) (src : String) (dfr : Bool) :
    (appendScript env d src dfr).2 = d ∨
    ∃ bd, d.body = some bd ∧ findScriptEl d src = none ∧
      (appendScript env d src dfr).2 =
        { d with body := some (bd ++ [mkScriptElem d.nextId src dfr]),
                 nextId := d.nextId + 1 } := by
  cases hb : d.body with
  | none => exact .inl (by simp [appendScript, hb])
  | some bd =>
    cases hq : env.failQuery with
    | true => exact .inl (by simp [appendScript, hb, hq])
    | false =>
      cases hf : findScriptEl d src with
      | some e => exact .inl (by simp [appendScript, hb, hq, hf])
      | none =>
        cases hc : env.failCreate || env.failAppend with
        | true => exact .inl (by simp [appendScript, hb, hq, hf, hc])
        | false =>
          exact .inr ⟨bd, rfl, rfl, by simp [appendScript, hb, hq, hf, hc]⟩

theorem styleLinksOf_append (x y : List Elem) :
    styleLinksOf (x ++ y) = styleLinksOf x ++ styleLinksOf y := by
  simp [styleLinksOf]

theorem scriptsOf_append (x y : List Elem) :
    scriptsOf (x ++ y) = scriptsOf x ++ scriptsOf y := by
  simp [scriptsOf]

theorem styleLinksOf_mkLink (i : Nat) (h : String) :
    styleLinksOf [mkLinkElem i h] = [mkLinkElem i h] := by
  simp [styleLinksOf, mkLinkElem]

theorem scriptsOf_mkLink (i : Nat) (h : String) :
    scriptsOf [mkLinkElem i h] = [] := by
  simp [scriptsOf, mkLinkElem]

theorem styleLinksOf_mkScript (i : Nat) (s : String) (b : Bool) :
    styleLinksOf [mkScriptElem i s b] = [] := by
  simp [styleLinksOf, mkScriptElem]

theorem scriptsOf_mkScript (i : Nat) (s : String) (b : Bool) :
    scriptsOf [mkScriptElem i s b] = [mkScriptElem i s b] := by
  simp [scriptsOf, mkScriptElem]

/-- A missing stylesheet duplicate means no head stylesheet link carries
this `href`. -/
theorem href_not_in_head (hd : List Elem) (href : String)
    (hf : findStyleLink hd href = none) :
    href ∉ (styleLinksOf hd).map Elem.href := by
  intro hmem
  obtain ⟨e, he, hhref⟩ := List.mem_map.1 hmem
  obtain ⟨hehd, hpred⟩ := List.mem_filter.1 he
  have hnone := List.find?_eq_none.1 hf e hehd
  simp only [Bool.and_eq_true, beq_iff_eq] at hpred hnone
  exact hnone ⟨hpred, hhref⟩

/-- A missing script duplicate means no document script carries this
`src`. -/
theorem src_not_in_doc (d : Doc) (src : String)
    (hf : findScriptEl d src = none) :
    src ∉ (scriptsOf (docElems d)).map Elem.src := by
  intro hmem
  obtain ⟨e, he, hsrc⟩ := List.mem_map.1 hmem
  obtain ⟨hed, hpred⟩ := List.mem_filter.1 he
  have hnone := List.find?_eq_none.1 hf e hed
  simp only [Bool.and_eq_true, beq_iff_eq] at hpred hnone
  exact hnone ⟨hpred, hsrc⟩

/-- One `ensure*` call preserves head-residence of stylesheet links and
duplicate-freedom of resource references. -/
theorem runCall_preserves (env : DomEnv) (d : Doc) (c : RCall)
    (hb : noBodyStyleLinks d) (hdup : dupFreeRefs d) :
    noBodyStyleLinks (runCall env d c) ∧ dupFreeRefs (runCall env d c) := by
  obtain ⟨hdup1, hdup2⟩ := hdup
  have hbody : styleLinksOf (d.body.getD []) = [] := hb
  cases c with
  | style h0 =>
    show noBodyStyleLinks (appendStylesheet env d h0).2 ∧
      dupFreeRefs (appendStylesheet env d h0).2
    rcases appendStylesheet_snd env d h0 with heq | ⟨hd, hh, hf, heq⟩
    · rw [heq]; exact ⟨hb, hdup1, hdup2⟩
    · rw [heq]
      have hde : docElems { d with
          head := some (hd ++ [mkLinkElem d.nextId h0]),
          nextId := d.nextId + 1 } =
          hd ++ [mkLinkElem d.nextId h0] ++ d.body.getD [] := by
        simp [docElems]
      have hdold : docElems d = hd ++ d.body.getD [] := by
        simp [docElems, hh]
      refine ⟨hb, ?_, ?_⟩
      · show ((styleLinksOf (docElems _)).map Elem.href).Nodup
        rw [hde, styleLinksOf_append, styleLinksOf_append, styleLinksOf_mkLink, hbody]
        rw [hdold, styleLinksOf_append, hbody] at hdup1
        simp only [List.append_nil] at hdup1
        simp only [List.append_nil, List.map_append, List.map_cons, List.map_nil]
        rw [List.nodup_append]
        refine ⟨hdup1, List.nodup_singleton _, ?_⟩
        intro a ha hmem
        simp only [List.mem_singleton] at hmem
        subst hmem
        exact href_not_in_head hd _ hf (by simpa [mkLinkElem] using ha)
      · show ((scriptsOf (docElems _)).map Elem.src).Nodup
        rw [hde, scriptsOf_append, scriptsOf_append, scriptsOf_mkLink]
        rw [hdold, scriptsOf_append] at hdup2
        simpa using hdup2
  | script s0 dfr0 =>
    show noBodyStyleLinks (appendScript env d s0 dfr0).2 ∧
      dupFreeRefs (appendScript env d s0 dfr0).2
    rcases appendScript_snd env d s0 dfr0 with heq | ⟨bd, hh, hf, heq⟩
    · rw [heq]; exact ⟨hb, hdup1, hdup2⟩
    · rw [heq]
      have hde : docElems { d with
          body := some (bd ++ [mkScriptElem d.nextId s0 dfr0]),
          nextId := d.nextId + 1 } =
          d.head.getD [] ++ (bd ++ [mkScriptElem d.nextId s0 dfr0]) := by
        simp [docElems]
      have hdold : docElems d = d.head.getD [] ++ bd := by
        simp [docElems, hh]
      have hbd : styleLinksOf bd = [] := by rw [hh] at hbody; simpa using hbody
      refine ⟨?_, ?_, ?_⟩
      · show styleLinksOf ((some (bd ++ [mkScriptElem d.nextId s0 dfr0])).getD []) = []
        simp only [Option.getD_some]
        rw [styleLinksOf_append, styleLinksOf_mkScript, hbd]
        rfl
      · show ((styleLinksOf (docElems _)).map Elem.href).Nodup
        rw [hde, styleLinksOf_append, styleLinksOf_append, styleLinksOf_mkScript, hbd]
        rw [hdold, styleLinksOf_append, hbd] at hdup1
        simpa using hdup1
      · show ((scriptsOf (docElems _)).map Elem.src).Nodup
        rw [hde, scriptsOf_append, scriptsOf_append, scriptsOf_mkScript]
        rw [hdold, scriptsOf_append] at hdup2
        rw [← List.append_assoc, List.map_append, List.nodup_append]
        refine ⟨by simpa using hdup2, List.nodup_singleton _, ?_⟩
        intro a ha hmem
        simp only [List.map_cons, List.map_nil, List.mem_singleton] at hmem
        subst hmem
        refine src_not_in_doc d _ hf ?_
        rw [hdold, scriptsOf_append]
        simpa [mkScriptElem] using ha

/-- A document that is duplicate-free but keeps a stylesheet link in the
body, outside the region `appendStylesheet` searches. -/
def strayLinkDoc : Doc :=
  { head := some [],
    body := some [{ eid := 3, tag := "link", rel := "stylesheet",
                    href := "/assets/common.css", src := "", media := "",
                    deferAttr := false }],
    nextId := 5 }

/-- C6 counterexample: against a hosting document whose pre-existing
stylesheet link sits in the body, a single `ensureStylesheet` call with the
same `href` appends a second stylesheet link (the duplicate check only
queries the head), so two resource elements with the same reference
coexist. -/
theorem C6_counterexample :
    dupFreeRefs strayLinkDoc ∧
    ¬ dupFreeRefs (runCalls envOk [RCall.style "/assets/common.css"] strayLinkDoc) := by
  constructor
  · decide
  · decide

/-- C6 amended: for every `ensure*` call sequence against a hosting
document all of whose stylesheet links reside in the head (the duplicate
check queries only the head for links, but the whole document for
scripts), duplicate-freedom of resource references is preserved at every
point; and a call whose reference matches an existing element returns that
element's handle and appends nothing. -/
theorem C6_no_duplicate_refs :
    (∀ env calls d, noBodyStyleLinks d → dupFreeRefs d →
       dupFreeRefs (runCalls env calls d)) ∧
    (∀ d hd href e, d.head = some hd → findStyleLink hd href = some e →
       appendStylesheet envOk d href = (some e.eid, d)) ∧
    (∀ d bd src dfr e, d.body = some bd → findScriptEl d src = some e →
       appendScript envOk d src dfr = (some e.eid, d)) := by
  refine ⟨?_, ?_, ?_⟩
  · intro env calls
    induction calls with
    | nil => intro d _ h2; exact h2
    | cons c cs ih =>
      intro d h1 h2
      have step := runCall_preserves env d c h1 h2
      have : runCalls env (c :: cs) d = runCalls env cs (runCall env d c) := rfl
      rw [this]
      exact ih _ step.1 step.2
  · intro d hd href e hh hf
    simp [appendStylesheet, hh, hf, envOk]
  · intro d bd src dfr e hb hf
    simp [appendScript, hb, hf, envOk]

/-- Witness for C6: a remount-like repeated call sequence on an empty
document stays duplicate-free, and a matching `href` in the head is
returned without mutation. -/
theorem C6_witness :
    dupFreeRefs (runCalls envOk
      [RCall.style "/assets/common.css", RCall.style "/assets/common.css",
       RCall.script "/assets/app.js" false, RCall.script "/assets/app.js" false]
      { head := some [], body := some [], nextId := 0 }) ∧
    appendStylesheet envOk
      { head := some [mkLinkElem 4 "/assets/common.css"], body := some [], nextId := 9 }
      "/assets/common.css" =
      (some 4, { head := some [mkLinkElem 4 "/assets/common.css"], body := some [],
                 nextId := 9 }) :=
  ⟨C6_no_duplicate_refs.1 envOk _ _ (by decide) (by decide),
   C6_no_duplicate_refs.2.1 _ _ _ (mkLinkElem 4 "/assets/common.css") rfl (by decide)⟩

/-! ### Generic scanner lemmas -/

theorem beginsWith_append_self (p v : List Char) :
    beginsWith p (p ++ v) = true := by
  induction p with
  | nil => rfl
  | cons c p ih => simp [beginsWith, ih]

theorem beginsWith_hasSub (p s : List Char) (h : beginsWith p s = true) :
    hasSub p s = true := by
  cases s with
  | nil => simpa [hasSub] using h
  | cons c cs => simp [hasSub, h]

/-- An occurrence of `x ++ y` as a prefix puts an occurrence of `y` in the
string. -/
theorem beginsWith_append_hasSub (x y s : List Char)
    (h : beginsWith (x ++ y) s = true) : hasSub y s = true := by
  induction x generalizing s with
  | nil => exact beginsWith_hasSub y s h
  | cons c x ih =>
    cases s with
    | nil => simp [beginsWith] at h
    | cons a as =>
      simp only [List.cons_append, beginsWith, Bool.and_eq_true] at h
      have := ih as h.2
      simp [hasSub, this]

theorem beginsWithCI_hasSubCI (p s : List Char) (h : beginsWithCI p s = true) :
    hasSubCI p s = true := by
  cases s with
  | nil => simpa [hasSubCI] using h
  | cons c cs => simp [hasSubCI, h]

/-- Case-insensitive matching of a pattern whose characters are fixed by
`Char.toLower` against a copy of itself. -/
theorem beginsWithCI_append_self (p v : List Char)
    (hp : ∀ c ∈ p, c.toLower = c) :
    beginsWithCI p (p ++ v) = true := by
  induction p with
  | nil => rfl
  | cons c p ih =>
    simp only [List.cons_append, beginsWithCI, Bool.and_eq_true]
    refine ⟨?_, ih (fun a ha => hp a (List.mem_cons_of_mem c ha))⟩
    rw [hp c (List.mem_cons_self c p)]
    exact beq_self_eq_true c

/-! ### Rule-absence identity lemmas -/

/-- Rule 1 leaves a string containing no `figmaimages/` untouched. -/
theorem replFigS_id (s : List Char)
    (h : hasSub "figmaimages/".data s = false) :
    replFigS 0 s = s := by
  induction s with
  | nil => rfl
  | cons c cs ih =>
    rw [hasSub, Bool.or_eq_false_iff] at h
    obtain ⟨h1, h2⟩ := h
    have hd : beginsWith "./figmaimages/".data cs = false := by
      by_contra hcon
      rw [Bool.not_eq_false] at hcon
      have : beginsWith ("./".data ++ "figmaimages/".data) cs = true := hcon
      rw [beginsWith_append_hasSub _ _ _ this] at h2
      simp at h2
    have hbare : beginsWith "figmaimages/".data cs = false := by
      by_contra hcon
      rw [Bool.not_eq_false] at hcon
      rw [beginsWith_hasSub _ _ hcon] at h2
      simp at h2
    rw [replFigS, hd, hbare]
    simp [ih h2]

/-- Rules 2–5 leave a string containing no occurrence of their literal
reference untouched. -/
theorem replLitS_id (pat repl s : List Char)
    (h : hasSub pat s = false) :
    replLitS pat repl 0 s = s := by
  induction s with
  | nil => rfl
  | cons c cs ih =>
    rw [hasSub, Bool.or_eq_false_iff] at h
    obtain ⟨h1, h2⟩ := h
    have hp : beginsWith pat cs = false := by
      by_contra hcon
      rw [Bool.not_eq_false] at hcon
      rw [beginsWith_hasSub _ _ hcon] at h2
      simp at h2
    rw [replLitS, hp]
    simp [ih h2]

/-- Rule 6 leaves a string containing neither `="assets/` nor `='assets/`
untouched. -/
theorem replAssetsS_id (s : List Char)
    (h1 : hasSub "=\"assets/".data s = false)
    (h2 : hasSub ('=' :: Char.ofNat 39 :: "assets/".data) s = false) :
    replAssetsS 0 s = s := by
  induction s with
  | nil => rfl
  | cons c cs ih =>
    rw [hasSub, Bool.or_eq_false_iff] at h1 h2
    obtain ⟨h1a, h1b⟩ := h1
    obtain ⟨h2a, h2b⟩ := h2
    have hsd : beginsWith "src=\"assets/".data (c :: cs) = false := by
      by_contra hcon
      rw [Bool.not_eq_false] at hcon
      have : beginsWith ("src".data ++ "=\"assets/".data) (c :: cs) = true := hcon
      have := beginsWith_append_hasSub _ _ _ this
      simp [hasSub, h1a, h1b] at this
    have hss : beginsWith ("src=".data ++ Char.ofNat 39 :: "assets/".data) (c :: cs) = false := by
      by_contra hcon
      rw [Bool.not_eq_false] at hcon
      have : beginsWith ("src".data ++ ('=' :: Char.ofNat 39 :: "assets/".data)) (c :: cs) = true := hcon
      have := beginsWith_append_hasSub _ _ _ this
      simp [hasSub, h2a, h2b] at this
    have hhd : beginsWith "href=\"assets/".data (c :: cs) = false := by
      by_contra hcon
      rw [Bool.not_eq_false] at hcon
      have : beginsWith ("href".data ++ "=\"assets/".data) (c :: cs) = true := hcon
      have := beginsWith_append_hasSub _ _ _ this
      simp [hasSub, h1a, h1b] at this
    have hhs : beginsWith ("href=".data ++ Char.ofNat 39 :: "assets/".data) (c :: cs) = false := by
      by_contra hcon
      rw [Bool.not_eq_false] at hcon
      have : beginsWith ("href".data ++ ('=' :: Char.ofNat 39 :: "assets/".data)) (c :: cs) = true := hcon
      have := beginsWith_append_hasSub _ _ _ this
      simp [hasSub, h2a, h2b] at this
    rw [replAssetsS, hsd, hss, hhd, hhs]
    simp [ih h1b h2b]

/-- Rule 7 leaves a string containing no `<link` (case-insensitively)
untouched. -/
theorem stripLinksS_id (s : List Char)
    (h : hasSubCI "<link".data s = false) :
    stripLinksS 0 s = s := by
  induction s with
  | nil => rfl
  | cons c cs ih =>
    rw [hasSubCI, Bool.or_eq_false_iff] at h
    obtain ⟨h1, h2⟩ := h
    rw [stripLinksS, h1]
    simp [ih h2]

/-! ### C7 — styles before markup commit, scripts after -/

/-- The fallback pair emits one or two events built by `mk`. -/
theorem ensureWithFallback_events (f : Doc → String → Option Nat × Doc)
    (d : Doc) (h1 h2 : String) (mk : String → MEvent) :
    (ensureWithFallback f d h1 h2 mk).2.2 = [mk h1] ∨
    (ensureWithFallback f d h1 h2 mk).2.2 = [mk h1, mk h2] := by
  unfold ensureWithFallback
  rcases hf : f d h1 with ⟨_ | h, d1⟩
  · rcases hg : f d1 h2 with ⟨r2, d2⟩
    right; simp
  · left; simp

/-- Every event of the first `ngOnInit` block is a stylesheet ensure. -/
theorem ngOnInitStyles_events (env : DomEnv) (d : Doc) :
    (ngOnInitStyles env d).2.2.all MEvent.isStyle = true := by
  rcases h1 : ensureWithFallback (appendStylesheet env) d
      "/assets/common.css" "assets/common.css" MEvent.ensureStyle with ⟨c1, d1, e1⟩
  rcases h2 : ensureWithFallback (appendStylesheet env) d1
      "/assets/spotify-1-0-3.css" "assets/spotify-1-0-3.css"
      MEvent.ensureStyle with ⟨c2, d2, e2⟩
  have E1 := ensureWithFallback_events (appendStylesheet env) d
      "/assets/common.css" "assets/common.css" MEvent.ensureStyle
  have E2 := ensureWithFallback_events (appendStylesheet env) d1
      "/assets/spotify-1-0-3.css" "assets/spotify-1-0-3.css" MEvent.ensureStyle
  rw [h1] at E1
  rw [h2] at E2
  simp only at E1 E2
  unfold ngOnInitStyles
  simp only [h1, h2]
  simp only [List.all_append, Bool.and_eq_true]
  rcases E1 with he | he <;> rcases E2 with hg | hg <;>
    simp [he, hg, MEvent.isStyle]

/-- Every event of the last `ngOnInit` block is a script ensure. -/
theorem ngOnInitScripts_events (env : DomEnv) (d : Doc) :
    (ngOnInitScripts env d).2.2.all MEvent.isScript = true := by
  rcases h1 : ensureWithFallback (fun d s => appendScript env d s false) d
      "/assets/app.js" "assets/app.js" MEvent.ensureScript with ⟨c1, d1, e1⟩
  rcases h2 : ensureWithFallback (fun d s => appendScript env d s false) d1
      "/assets/spotify-1-0-3.js" "assets/spotify-1-0-3.js"
      MEvent.ensureScript with ⟨c2, d2, e2⟩
  have E1 := ensureWithFallback_events (fun d s => appendScript env d s false) d
      "/assets/app.js" "assets/app.js" MEvent.ensureScript
  have E2 := ensureWithFallback_events (fun d s => appendScript env d s false) d1
      "/assets/spotify-1-0-3.js" "assets/spotify-1-0-3.js" MEvent.ensureScript
  rw [h1] at E1
  rw [h2] at E2
  simp only at E1 E2
  unfold ngOnInitScripts
  simp only [h1, h2]
  simp only [List.all_append, Bool.and_eq_true]
  rcases E1 with he | he <;> rcases E2 with hg | hg <;>
    simp [he, hg, MEvent.isScript]

/-- C7: in every mount, the event trace of `ngOnInit` splits as a block of
stylesheet ensures, then the markup commit, then a block of script
ensures — styles are ensured before the markup is committed and scripts
only after. -/
theorem C7_styles_commit_scripts_order (env : DomEnv) (browser : Bool)
    (src : String) (d : Doc) :
    ∃ ss js, (ngOnInitRun env browser src d).events =
        ss ++ [MEvent.commitMarkup] ++ js ∧
      ss.all MEvent.isStyle = true ∧ js.all MEvent.isScript = true := by
  cases browser with
  | false => exact ⟨[], [], rfl, rfl, rfl⟩
  | true =>
    refine ⟨(ngOnInitStyles env d).2.2,
      (ngOnInitScripts env (ngOnInitStyles env d).1).2.2, rfl,
      ngOnInitStyles_events env d, ngOnInitScripts_events env _⟩

/-- Witness for C7 at a concrete browser mount on an empty document. -/
theorem C7_witness :
    ∃ ss js,
      (ngOnInitRun envOk true "" { head := some [], body := some [], nextId := 0 }).events =
        ss ++ [MEvent.commitMarkup] ++ js ∧
      ss.all MEvent.isStyle = true ∧ js.all MEvent.isScript = true :=
  C7_styles_commit_scripts_order envOk true ""
    { head := some [], body := some [], nextId := 0 }

/-! ### C8 — image directory references are rewritten to the asset root -/

/-- The Rule-1 test at the head of the remaining input. -/
def hitFig (t : List Char) : Bool :=
  match t with
  | [] => false
  | c :: cs =>
    isDelim c && (beginsWith "./figmaimages/".data cs ||
      beginsWith "figmaimages/".data cs)

theorem beginsWith_cons_false (p c : Char) (ps cs : List Char)
    (h : (p == c) = false) :
    beginsWith (p :: ps) (c :: cs) = false := by
  simp [beginsWith, h]

/-- Consuming exactly a known-length already-matched region. -/
theorem replFigS_skipn (u v : List Char) :
    replFigS u.length (u ++ v) = replFigS 0 v := by
  induction u with
  | nil => rfl
  | cons c u ih => simpa [replFigS] using ih

/-- Rule 1 copies any region in which no match starts. -/
theorem replFigS_skip (u tail : List Char)
    (h : noHitWithin hitFig u tail = true) :
    replFigS 0 (u ++ tail) = u ++ replFigS 0 tail := by
  induction u with
  | nil => rfl
  | cons c u ih =>
    rw [noHitWithin, Bool.and_eq_true] at h
    obtain ⟨hh, ht⟩ := h
    rw [Bool.not_eq_eq_eq_not, Bool.not_true] at hh
    cases hd : isDelim c with
    | false =>
      rw [List.cons_append, replFigS]
      simp only [hd, Bool.false_and, Bool.false_eq_true, if_false]
      rw [ih ht, List.cons_append]
    | true =>
      have hb : (beginsWith "./figmaimages/".data (u ++ tail) ||
          beginsWith "figmaimages/".data (u ++ tail)) = false := by
        simpa [hitFig, hd] using hh
      rw [Bool.or_eq_false_iff] at hb
      rw [List.cons_append, replFigS]
      simp only [hd, hb.1, hb.2, Bool.and_false, Bool.false_eq_true, if_false]
      rw [ih ht, List.cons_append]

/-- Rule 1 rewrites a `./figmaimages/` reference at a delimiter. -/
theorem replFigS_match_dot (q : Char) (v : List Char) (hq : isDelim q = true) :
    replFigS 0 (q :: ("./figmaimages/".data ++ v)) =
      q :: ("/assets/figmaimages/".data ++ replFigS 0 v) := by
  rw [replFigS, beginsWith_append_self]
  simp only [hq, Bool.and_true, if_true, Bool.true_and]
  have h14 : (14 : Nat) = ("./figmaimages/".data).length := rfl
  rw [h14, replFigS_skipn]

/-- Rule 1 rewrites a bare `figmaimages/` reference at a delimiter. -/
theorem replFigS_match_bare (q : Char) (v : List Char) (hq : isDelim q = true) :
    replFigS 0 (q :: ("figmaimages/".data ++ v)) =
      q :: ("/assets/figmaimages/".data ++ replFigS 0 v) := by
  have hdot : beginsWith "./figmaimages/".data ("figmaimages/".data ++ v) = false := by
    have e1 : "./figmaimages/".data = '.' :: "/figmaimages/".data := rfl
    have e2 : "figmaimages/".data ++ v = 'f' :: ("igmaimages/".data ++ v) := rfl
    rw [e1, e2]
    exact beginsWith_cons_false _ _ _ _ (by decide)
  rw [replFigS, hdot, beginsWith_append_self]
  simp only [hq, Bool.and_true, Bool.and_false, Bool.false_eq_true, if_false,
    if_true, Bool.true_and]
  have h12 : (12 : Nat) = ("figmaimages/".data).length := rfl
  rw [h12, replFigS_skipn]

/-- C8: every `figmaimages/` reference immediately preceded by a quote or
opening parenthesis — with or without a leading `./` — is rewritten by
Rule 1 to `/assets/figmaimages/` (the recursion on the remainder covers
later occurrences), and on the §8 scenario input the full Path Rewriter
produces exactly the claimed output. -/
theorem C8_figmaimages_rewritten :
    (∀ (u : List Char) (q : Char) (v : List Char), isDelim q = true →
       noHitWithin hitFig u (q :: ("./figmaimages/".data ++ v)) = true →
       replFigS 0 (u ++ q :: ("./figmaimages/".data ++ v)) =
         u ++ q :: ("/assets/figmaimages/".data ++ replFigS 0 v)) ∧
    (∀ (u : List Char) (q : Char) (v : List Char), isDelim q = true →
       noHitWithin hitFig u (q :: ("figmaimages/".data ++ v)) = true →
       replFigS 0 (u ++ q :: ("figmaimages/".data ++ v)) =
         u ++ q :: ("/assets/figmaimages/".data ++ replFigS 0 v)) ∧
    rewriteAssetUrls "<a href=\"./figmaimages/x.png\">" =
      "<a href=\"/assets/figmaimages/x.png\">" := by
  refine ⟨?_, ?_, by decide⟩
  · intro u q v hq hu
    rw [replFigS_skip u _ hu, replFigS_match_dot q v hq]
  · intro u q v hq hu
    rw [replFigS_skip u _ hu, replFigS_match_bare q v hq]

/-- Witness for C8 at a concrete image tag. -/
theorem C8_witness :
    replFigS 0 ("<img src=".data ++ '"' :: ("./figmaimages/".data ++ "x.png\" alt=1>".data)) =
      "<img src=".data ++ '"' :: ("/assets/figmaimages/".data ++ replFigS 0 "x.png\" alt=1>".data) :=
  C8_figmaimages_rewritten.1 _ _ _ (by decide) (by decide)

/-! ### C3 — characterization of the Markup Extractor -/

/-- Without any `<body` text the body regex cannot match anywhere. -/
theorem findBodyInner_none (s : List Char)
    (h : hasSubCI "<body".data s = false) :
    findBodyInner s = none := by
  induction s with
  | nil => rfl
  | cons c cs ih =>
    rw [hasSubCI, Bool.or_eq_false_iff] at h
    obtain ⟨h1, h2⟩ := h
    rw [findBodyInner]
    have : bodyInnerAt (c :: cs) = none := by simp [bodyInnerAt, h1]
    simp [this, ih h2]

/-- The body-match scanner skips a region in which no full match starts. -/
theorem findBodyInner_skip (u tail : List Char)
    (h : noHitWithin (fun t => (bodyInnerAt t).isSome) u tail = true) :
    findBodyInner (u ++ tail) = findBodyInner tail := by
  induction u with
  | nil => rfl
  | cons c u ih =>
    rw [noHitWithin, Bool.and_eq_true] at h
    obtain ⟨hh, ht⟩ := h
    rw [Bool.not_eq_eq_eq_not, Bool.not_true] at hh
    have hnone : bodyInnerAt (c :: (u ++ tail)) = none := by
      cases hbi : bodyInnerAt (c :: (u ++ tail)) with
      | none => rfl
      | some r => rw [hbi] at hh; simp at hh
    rw [List.cons_append, findBodyInner, hnone]
    exact ih ht

theorem afterGt_through (a rest : List Char)
    (h : a.all (fun c => !(c == '>')) = true) :
    afterGt (a ++ ('>' :: rest)) = some rest := by
  induction a with
  | nil => simp [afterGt]
  | cons c a ih =>
    rw [List.all_cons, Bool.and_eq_true] at h
    have hc : (c == '>') = false := by simpa using h.1
    rw [List.cons_append, afterGt]
    simp [hc, ih h.2]

theorem innerUpToCloseBody_head (c : Char) (cs : List Char)
    (h : beginsWithCI "</body>".data (c :: cs) = true) :
    innerUpToCloseBody (c :: cs) = some [] := by
  simp [innerUpToCloseBody, h]

/-- The lazy group stops exactly at the first `</body>`. -/
theorem innerUpToCloseBody_exact (inner q : List Char)
    (h : noHitWithin (fun t => beginsWithCI "</body>".data t) inner
      ("</body>".data ++ q) = true) :
    innerUpToCloseBody (inner ++ ("</body>".data ++ q)) = some inner := by
  induction inner with
  | nil =>
    have e : "</body>".data ++ q = '<' :: ("/body>".data ++ q) := rfl
    have hb : beginsWithCI "</body>".data ('<' :: ("/body>".data ++ q)) = true := by
      rw [← e]
      exact beginsWithCI_append_self _ _ (by decide)
    show innerUpToCloseBody ("</body>".data ++ q) = some []
    rw [e]
    exact innerUpToCloseBody_head _ _ hb
  | cons c inner ih =>
    rw [noHitWithin, Bool.and_eq_true] at h
    obtain ⟨hh, ht⟩ := h
    rw [Bool.not_eq_eq_eq_not, Bool.not_true] at hh
    rw [List.cons_append, innerUpToCloseBody, hh]
    simp only [Bool.false_eq_true, if_false]
    rw [ih ht]
    rfl

/-- The body regex at the start of a well-formed body region yields exactly
the inner content. -/
theorem bodyInnerAt_match (a inner q : List Char)
    (ha : a.all (fun c => !(c == '>')) = true)
    (hin : noHitWithin (fun t => beginsWithCI "</body>".data t) inner
      ("</body>".data ++ q) = true) :
    bodyInnerAt ("<body".data ++ (a ++ ('>' :: (inner ++ ("</body>".data ++ q))))) =
      some inner := by
  rw [bodyInnerAt]
  rw [beginsWithCI_append_self _ _ (by decide)]
  have hdrop : ("<body".data ++ (a ++ ('>' :: (inner ++ ("</body>".data ++ q))))).drop 5 =
      a ++ ('>' :: (inner ++ ("</body>".data ++ q))) := by
    have h5 : (5 : Nat) = ("<body".data).length := rfl
    rw [h5, List.drop_left]
  rw [if_pos rfl, hdrop, afterGt_through _ _ ha]
  exact innerUpToCloseBody_exact _ _ hin

theorem findBodyInner_head (c : Char) (cs : List Char) (r : List Char)
    (h : bodyInnerAt (c :: cs) = some r) :
    findBodyInner (c :: cs) = some r := by
  rw [findBodyInner, h]

/-- C3: the claim's no-body half fails — with no `<body` tag the extractor
still strips `<script>` elements, so the input is not returned unchanged
(`C3_counterexample`).  Amended characterization: with no `<body` text
(case-insensitively) the result is the input with script elements
stripped; and on a well-formed first `<body ...> ... </body>` region with
non-empty inner content the result is exactly that inner content with
script elements stripped. -/
theorem C3_extractor_characterized :
    (∀ s : String, hasSubCI "<body".data s.data = false →
       extractBodyInnerHtml s = ⟨stripScriptsS 0 s.data⟩) ∧
    (∀ p a inner q : List Char,
       noHitWithin (fun t => (bodyInnerAt t).isSome) p
         ("<body".data ++ (a ++ ('>' :: (inner ++ ("</body>".data ++ q))))) = true →
       a.all (fun c => !(c == '>')) = true →
       noHitWithin (fun t => beginsWithCI "</body>".data t) inner
         ("</body>".data ++ q) = true →
       inner ≠ [] →
       extractBodyCore
         (p ++ ("<body".data ++ (a ++ ('>' :: (inner ++ ("</body>".data ++ q)))))) =
         stripScriptsS 0 inner) := by
  constructor
  · intro s h
    show (⟨extractBodyCore s.data⟩ : String) = _
    rw [extractBodyCore]
    rw [findBodyInner_none s.data h]
  · intro p a inner q hp ha hin hne
    have hT : findBodyInner
        (p ++ ("<body".data ++ (a ++ ('>' :: (inner ++ ("</body>".data ++ q)))))) =
        some inner := by
      rw [findBodyInner_skip p _ hp]
      have e : "<body".data ++ (a ++ ('>' :: (inner ++ ("</body>".data ++ q)))) =
          '<' :: ("body".data ++ (a ++ ('>' :: (inner ++ ("</body>".data ++ q))))) := rfl
      rw [e]
      refine findBodyInner_head _ _ _ ?_
      rw [← e]
      exact bodyInnerAt_match a inner q ha hin
    rw [extractBodyCore, hT]
    have : inner.isEmpty = false := by
      cases inner with
      | nil => exact absurd rfl hne
      | cons c cs => rfl
    simp [this]

/-- C3 counterexample: an input with no `<body>` tag but with a script
element is not returned unchanged — the script element is stripped. -/
theorem C3_counterexample :
    hasSubCI "<body".data "a<script>b</script>c".data = false ∧
    extractBodyInnerHtml "a<script>b</script>c" ≠ "a<script>b</script>c" ∧
    extractBodyInnerHtml "a<script>b</script>c" = "ac" := by
  refine ⟨by decide, by decide, by decide⟩

/-- Witness for C3 on concrete prefix, attributes, inner content and
tail. -/
theorem C3_witness :
    extractBodyCore
        ("x!".data ++ ("<body".data ++ (" id=7".data ++ ('>' ::
          ("Hello".data ++ ("</body>".data ++ "tail".data)))))) =
      stripScriptsS 0 "Hello".data :=
  C3_extractor_characterized.2 _ _ _ _ (by decide) (by decide) (by decide)
    (by decide)

/-! ### C5 — script elements and the `<script` substring -/

theorem stripScriptsS_skipn (u v : List Char) :
    stripScriptsS u.length (u ++ v) = stripScriptsS 0 v := by
  induction u with
  | nil => rfl
  | cons c u ih => simpa [stripScriptsS] using ih

/-- The script stripper copies a region in which no `<script` text
begins. -/
theorem stripScriptsS_skip (u tail : List Char)
    (h : noHitWithin (fun t => beginsWithCI "<script".data t) u tail = true) :
    stripScriptsS 0 (u ++ tail) = u ++ stripScriptsS 0 tail := by
  induction u with
  | nil => rfl
  | cons c u ih =>
    rw [noHitWithin, Bool.and_eq_true] at h
    obtain ⟨hh, ht⟩ := h
    rw [Bool.not_eq_eq_eq_not, Bool.not_true] at hh
    rw [List.cons_append, stripScriptsS, hh]
    simp [ih ht]

/-- `findCI` locates the first `</script>` after a clean gap. -/
theorem findCI_closeScript (m y : List Char)
    (h : noHitWithin (fun t => beginsWithCI "</script>".data t) m
      ("</script>".data ++ y) = true) :
    findCI "</script>".data (m ++ ("</script>".data ++ y)) = some m.length := by
  induction m with
  | nil =>
    have e : "</script>".data ++ y = '<' :: ("/script>".data ++ y) := rfl
    have hb : beginsWithCI "</script>".data ('<' :: ("/script>".data ++ y)) = true := by
      rw [← e]
      exact beginsWithCI_append_self _ _ (by decide)
    show findCI "</script>".data ("</script>".data ++ y) = some 0
    rw [e, findCI, hb]
    rfl
  | cons c m ih =>
    rw [noHitWithin, Bool.and_eq_true] at h
    obtain ⟨hh, ht⟩ := h
    rw [Bool.not_eq_eq_eq_not, Bool.not_true] at hh
    rw [List.cons_append, findCI, hh]
    simp only [Bool.false_eq_true, if_false]
    rw [ih ht]
    rfl

theorem closeScriptDist_exact (m y : List Char)
    (h : noHitWithin (fun t => beginsWithCI "</script>".data t) m
      ("</script>".data ++ y) = true) :
    closeScriptDist ("script".data ++ (m ++ ("</script>".data ++ y))) =
      some (6 + m.length + 9) := by
  rw [closeScriptDist]
  have hdrop : ("script".data ++ (m ++ ("</script>".data ++ y))).drop 6 =
      m ++ ("</script>".data ++ y) := by
    have h6 : (6 : Nat) = ("script".data).length := rfl
    rw [h6, List.drop_left]
  rw [hdrop, findCI_closeScript m y h]
  rfl

/-- A whole `<script ... </script>` match is removed and scanning resumes
right after it. -/
theorem stripScriptsS_match (m y : List Char)
    (h : noHitWithin (fun t => beginsWithCI "</script>".data t) m
      ("</script>".data ++ y) = true) :
    stripScriptsS 0 ("<script".data ++ (m ++ ("</script>".data ++ y))) =
      stripScriptsS 0 y := by
  have e : "<script".data ++ (m ++ ("</script>".data ++ y)) =
      '<' :: ("script".data ++ (m ++ ("</script>".data ++ y))) := rfl
  have hb : beginsWithCI "<script".data
      ('<' :: ("script".data ++ (m ++ ("</script>".data ++ y)))) = true := by
    rw [← e]
    exact beginsWithCI_append_self _ _ (by decide)
  rw [e, stripScriptsS, hb]
  rw [if_pos rfl, closeScriptDist_exact m y h]
  show stripScriptsS (6 + m.length + 9)
      ("script".data ++ (m ++ ("</script>".data ++ y))) = stripScriptsS 0 y
  have hassoc : "script".data ++ (m ++ ("</script>".data ++ y)) =
      (("script".data ++ m) ++ "</script>".data) ++ y := by
    simp [List.append_assoc]
  have hlen : 6 + m.length + 9 = (("script".data ++ m) ++ "</script>".data).length := by
    simp [List.length_append]
    omega
  rw [hassoc, hlen, stripScriptsS_skipn]

/-- C5: the claim fails — removal of a script element can concatenate the
surrounding text into a fresh `<script` occurrence
(`C5_counterexample`).  Amended: each well-formed `<script ... </script>`
element (no `<script` text beginning before it, no premature `</script>`
inside it) is removed entire by the extractor, the output being the
surrounding text with stripping continued after the element. -/
theorem C5_script_element_removed :
    ∀ x m y : List Char,
      noHitWithin (fun t => beginsWithCI "<script".data t) x
        ("<script".data ++ (m ++ ("</script>".data ++ y))) = true →
      noHitWithin (fun t => beginsWithCI "</script>".data t) m
        ("</script>".data ++ y) = true →
      hasSubCI "<body".data
        (x ++ ("<script".data ++ (m ++ ("</script>".data ++ y)))) = false →
      extractBodyCore (x ++ ("<script".data ++ (m ++ ("</script>".data ++ y)))) =
        x ++ stripScriptsS 0 y := by
  intro x m y hx hm hnb
  rw [extractBodyCore, findBodyInner_none _ hnb]
  show stripScriptsS 0 (x ++ ("<script".data ++ (m ++ ("</script>".data ++ y)))) = _
  rw [stripScriptsS_skip x _ hx, stripScriptsS_match m y hm]

/-- C5 counterexample: the input contains the script element
`<script>x</script>`, yet the extractor's output is exactly `<script>` —
removal joined `<scr` and `ipt>` into a new `<script` occurrence. -/
theorem C5_counterexample :
    hasSubCI "<script>x</script>".data "<scr<script>x</script>ipt>".data = true ∧
    extractBodyInnerHtml "<scr<script>x</script>ipt>" = "<script>" ∧
    hasSubCI "<script".data (extractBodyInnerHtml "<scr<script>x</script>ipt>").data = true := by
  refine ⟨by decide, by decide, by decide⟩

/-- Witness for C5 at a concrete script element. -/
theorem C5_witness :
    extractBodyCore
        ("ab".data ++ ("<script".data ++ (" defer>alert(1)".data ++
          ("</script>".data ++ "cd".data)))) =
      "ab".data ++ stripScriptsS 0 "cd".data :=
  C5_script_element_removed _ _ _ (by decide) (by decide) (by decide)

/-! ### C9 — unrelated references are preserved: a frame theorem

The protected block is a quoted value `q :: w ++ [q2]` whose content `w`
is delimiter-free, contains no `<link` text, is no suffix-aligned
`src=`/`href=` attribute fragment, and begins with none of the recognized
reference forms.  The quotes are walls: no rule trigger can begin inside
the block or reach across it, whatever comes before or after. -/

/-- Membership of the quote subclass of the delimiter class. -/
def isQuote (c : Char) : Bool := c == '"' || c == Char.ofNat 39

theorem ne_of_quote (q c : Char) (hq : isQuote q = true) (hc : isQuote c = false) :
    (c == q) = false := by
  cases hcq : c == q with
  | false => rfl
  | true =>
    rw [beq_iff_eq] at hcq
    rw [hcq, hq] at hc
    exact Bool.noConfusion hc

theorem toLower_quote (q : Char) (hq : isQuote q = true) : q.toLower = q := by
  rw [isQuote, Bool.or_eq_true] at hq
  rcases hq with h | h <;> (rw [beq_iff_eq] at h; subst h; decide)

/-- Rule 7 keeps a leading quote in place: the link pattern begins with
an angle bracket. -/
theorem stripLinksS_headQuote (c : Char) (t : List Char) (hc : isQuote c = true) :
    ∃ r, stripLinksS 0 (c :: t) = c :: r := by
  have e : "<link".data = '<' :: "link".data := rfl
  have h1 : beginsWithCI "<link".data (c :: t) = false := by
    rw [e, beginsWithCI, toLower_quote c hc,
      ne_of_quote c '<' hc (by decide), Bool.false_and]
  rw [stripLinksS, h1]
  simp only [Bool.false_eq_true, if_false]
  exact ⟨_, rfl⟩

end FigmaScreen
